import Mathlib

/-!
Verification of the bsud daemon (outscale/bsud) against its natural-language
specification.  The development shallowly embeds the Rust sources:

* `src/utils.rs`   — byte/GiB conversions (f32-based),
* `src/config.rs`  — configuration data model,
* `src/bsu.rs`     — cloud volume client, rate limiter, device allocator,
* `src/drive.rs`   — per-drive reconciler: grow/shrink policy, remove_bsu.

Rust `f32` arithmetic is modelled exactly: an `f32` value is a rational of the
form `m * 2^e` with `|m| < 2^24`, and every arithmetic operation rounds its
exact rational result to the nearest such number (ties to even) via `fround`.
The model has an unbounded exponent range; all values in the claims checked
here are far inside the normal `f32` range (no overflow/subnormals), where the
model and IEEE-754 binary32 agree.
-/

namespace Bsud

/-! ## A fuelled, kernel-computable base-2 logarithm on ℕ -/

/-- Floor base-2 logarithm, fuelled so that it is structurally recursive. -/
def natLog2Aux : ℕ → ℕ → ℕ
  | 0, _ => 0
  | fuel + 1, n => if n < 2 then 0 else natLog2Aux fuel (n / 2) + 1

/-- Floor base-2 logarithm: for `1 ≤ n`, `2 ^ natLog2 n ≤ n < 2 ^ (natLog2 n + 1)`. -/
def natLog2 (n : ℕ) : ℕ := natLog2Aux n n

/-- Ceiling base-2 logarithm, fuelled. -/
def natClog2Aux : ℕ → ℕ → ℕ
  | 0, _ => 0
  | fuel + 1, n => if n ≤ 1 then 0 else natClog2Aux fuel ((n + 1) / 2) + 1

/-- Ceiling base-2 logarithm: least `k` with `n ≤ 2 ^ k`. -/
def natClog2 (n : ℕ) : ℕ := natClog2Aux n n

theorem natLog2Aux_spec :
    ∀ fuel n, 1 ≤ n → n ≤ fuel →
      2 ^ natLog2Aux fuel n ≤ n ∧ n < 2 ^ (natLog2Aux fuel n + 1) := by
  intro fuel
  induction fuel with
  | zero => intro n h1 h2; omega
  | succ f ih =>
    intro n h1 h2
    by_cases hn : n < 2
    · have : n = 1 := by omega
      subst this
      simp [natLog2Aux]
    · have h2n : 2 ≤ n := by omega
      have hrec := ih (n / 2) (by omega) (by omega)
      have hdiv : 2 * (n / 2) ≤ n := Nat.mul_div_le n 2
      have hdiv2 : n < 2 * (n / 2) + 2 := by omega
      simp only [natLog2Aux, if_neg (by omega : ¬ n < 2)]
      constructor
      · calc 2 ^ (natLog2Aux f (n / 2) + 1) = 2 * 2 ^ natLog2Aux f (n / 2) := by ring
        _ ≤ 2 * (n / 2) := by omega
        _ ≤ n := hdiv
      · calc n < 2 * (n / 2) + 2 := hdiv2
        _ ≤ 2 * 2 ^ (natLog2Aux f (n / 2) + 1) := by omega
        _ = 2 ^ (natLog2Aux f (n / 2) + 1 + 1) := by ring

theorem natLog2_spec (n : ℕ) (h : 1 ≤ n) :
    2 ^ natLog2 n ≤ n ∧ n < 2 ^ (natLog2 n + 1) :=
  natLog2Aux_spec n n h le_rfl

theorem natClog2Aux_one : ∀ fuel, natClog2Aux fuel 1 = 0 := by
  intro fuel; cases fuel <;> simp [natClog2Aux]

theorem natClog2Aux_spec :
    ∀ fuel n, 1 ≤ n → n ≤ fuel →
      n ≤ 2 ^ natClog2Aux fuel n ∧
      (2 ≤ n → 2 ^ (natClog2Aux fuel n - 1) < n ∧ 1 ≤ natClog2Aux fuel n) := by
  intro fuel
  induction fuel with
  | zero => intro n h1 h2; omega
  | succ f ih =>
    intro n h1 h2
    by_cases hn : n ≤ 1
    · have : n = 1 := by omega
      subst this
      simp [natClog2Aux]
    · have h2n : 2 ≤ n := by omega
      set m := (n + 1) / 2 with hm
      have hmle : 2 * m ≤ n + 1 := by omega
      have hmge : n ≤ 2 * m := by omega
      have hm1 : 1 ≤ m := by omega
      have hmf : m ≤ f := by omega
      have hrec := ih m hm1 hmf
      simp only [natClog2Aux, if_neg (by omega : ¬ n ≤ 1)]
      rw [← hm]
      refine ⟨?_, fun _ => ⟨?_, by omega⟩⟩
      · calc n ≤ 2 * m := hmge
        _ ≤ 2 * 2 ^ natClog2Aux f m := by omega
        _ = 2 ^ (natClog2Aux f m + 1) := by ring
      · rcases Nat.lt_or_ge m 2 with hm2 | hm2
        · have : m = 1 := by omega
          rw [this, natClog2Aux_one]
          simpa using h2n
        · have hs := (hrec.2 hm2)
          have hc1 : 1 ≤ natClog2Aux f m := hs.2
          have : 2 ^ (natClog2Aux f m + 1 - 1) = 2 * 2 ^ (natClog2Aux f m - 1) := by
            rw [Nat.add_sub_cancel, ← pow_succ']
            congr 1
            omega
          rw [this]
          omega

theorem natClog2_spec (n : ℕ) (h : 1 ≤ n) :
    n ≤ 2 ^ natClog2 n ∧ (2 ≤ n → 2 ^ (natClog2 n - 1) < n ∧ 1 ≤ natClog2 n) :=
  natClog2Aux_spec n n h le_rfl

/-! ## Base-2 logarithm on ℚ and round-to-nearest-even -/

/-- The value `intLog2 q` is the unique `E` with `2^E ≤ q < 2^(E+1)` for `0 < q`. -/
def intLog2 (q : ℚ) : ℤ :=
  if 1 ≤ q then (natLog2 (Int.toNat ⌊q⌋) : ℤ) else -(natClog2 (Int.toNat ⌈q⁻¹⌉) : ℤ)

theorem intLog2_spec (q : ℚ) (hq : 0 < q) :
    (2 : ℚ) ^ intLog2 q ≤ q ∧ q < 2 ^ (intLog2 q + 1) := by
  unfold intLog2
  by_cases h1 : 1 ≤ q
  · rw [if_pos h1]
    have hf1 : 1 ≤ ⌊q⌋ := Int.le_floor.mpr (by exact_mod_cast h1)
    set n := Int.toNat ⌊q⌋ with hn
    have hn1 : 1 ≤ n := by omega
    have hcast : (n : ℤ) = ⌊q⌋ := Int.toNat_of_nonneg (by omega)
    obtain ⟨hl, hu⟩ := natLog2_spec n hn1
    constructor
    · rw [zpow_natCast]
      calc ((2 : ℚ) ^ natLog2 n) = ((2 ^ natLog2 n : ℕ) : ℚ) := by push_cast; ring
      _ ≤ (n : ℚ) := by exact_mod_cast hl
      _ = ((⌊q⌋ : ℤ) : ℚ) := by exact_mod_cast congrArg (fun z => ((z : ℤ) : ℚ)) hcast
      _ ≤ q := Int.floor_le q
    · have : ((natLog2 n : ℤ) + 1) = ((natLog2 n + 1 : ℕ) : ℤ) := by push_cast; ring
      rw [this, zpow_natCast]
      calc q < ⌊q⌋ + 1 := Int.lt_floor_add_one q
      _ = (n : ℚ) + 1 := by rw [← hcast]; push_cast; ring
      _ ≤ ((2 ^ (natLog2 n + 1) : ℕ) : ℚ) := by
            have : (n : ℚ) + 1 = ((n + 1 : ℕ) : ℚ) := by push_cast; ring
            rw [this]
            exact_mod_cast hu
      _ = (2 : ℚ) ^ (natLog2 n + 1) := by push_cast; ring
  · rw [if_neg h1]
    push_neg at h1
    have hqinv : 1 < q⁻¹ := (one_lt_inv_iff₀.mpr ⟨hq, h1⟩)
    have hc2 : 2 ≤ ⌈q⁻¹⌉ := by
      have := Int.lt_ceil.mpr (by exact_mod_cast hqinv : ((1 : ℤ) : ℚ) < q⁻¹)
      omega
    set m := Int.toNat ⌈q⁻¹⌉ with hmdef
    have hm2 : 2 ≤ m := by omega
    have hcast : (m : ℤ) = ⌈q⁻¹⌉ := Int.toNat_of_nonneg (by omega)
    obtain ⟨hl, hu⟩ := natClog2_spec m (by omega)
    obtain ⟨hstrict, hc1⟩ := hu hm2
    set c := natClog2 m with hcdef
    have hqinv_le : q⁻¹ ≤ ((2 ^ c : ℕ) : ℚ) := by
      calc q⁻¹ ≤ ⌈q⁻¹⌉ := Int.le_ceil q⁻¹
      _ = ((m : ℤ) : ℚ) := by rw [hcast]
      _ ≤ ((2 ^ c : ℕ) : ℚ) := by exact_mod_cast hl
    have hqinv_gt : ((2 ^ (c - 1) : ℕ) : ℚ) < q⁻¹ := by
      have h1' : (⌈q⁻¹⌉ : ℚ) - 1 < q⁻¹ := by
        have := Int.ceil_lt_add_one q⁻¹
        linarith
      calc ((2 ^ (c - 1) : ℕ) : ℚ) ≤ ((m : ℚ)) - 1 := by
            have : (2 ^ (c - 1) : ℕ) + 1 ≤ m := hstrict
            have hcast2 : ((2 ^ (c - 1) : ℕ) : ℚ) + 1 ≤ (m : ℚ) := by exact_mod_cast this
            linarith
      _ = (⌈q⁻¹⌉ : ℚ) - 1 := by
            have : ((m : ℤ) : ℚ) = ((⌈q⁻¹⌉ : ℤ) : ℚ) := by rw [hcast]
            push_cast at this ⊢
            linarith
      _ < q⁻¹ := h1'
    constructor
    · rw [zpow_neg, zpow_natCast]
      rw [inv_le_comm₀ (by positivity) hq]
      calc q⁻¹ ≤ ((2 ^ c : ℕ) : ℚ) := hqinv_le
      _ = (2 : ℚ) ^ c := by push_cast; ring
    · have hexp : (-(c : ℤ) + 1) = -(((c : ℤ)) - 1) := by ring
      rw [hexp, zpow_neg]
      rw [lt_inv_comm₀ hq (by positivity)]
      have hzc : (2 : ℚ) ^ (((c : ℤ)) - 1) = ((2 ^ (c - 1) : ℕ) : ℚ) := by
        have : ((c : ℤ)) - 1 = ((c - 1 : ℕ) : ℤ) := by omega
        rw [this, zpow_natCast]
        push_cast
        ring
      rw [hzc]
      exact hqinv_gt

theorem intLog2_eq_of_bounds (q : ℚ) (E : ℤ) (hq : 0 < q)
    (hl : (2 : ℚ) ^ E ≤ q) (hu : q < 2 ^ (E + 1)) : intLog2 q = E := by
  obtain ⟨hl', hu'⟩ := intLog2_spec q hq
  by_contra hne
  rcases lt_or_gt_of_ne hne with h | h
  · have : (2 : ℚ) ^ (intLog2 q + 1) ≤ 2 ^ E :=
      zpow_le_zpow_right₀ (by norm_num) (by omega)
    linarith
  · have : (2 : ℚ) ^ (E + 1) ≤ 2 ^ intLog2 q :=
      zpow_le_zpow_right₀ (by norm_num) (by omega)
    linarith

/-- Round a rational to the nearest integer, ties to even. -/
def roundHalfEven (q : ℚ) : ℤ :=
  if q - ⌊q⌋ < 1 / 2 then ⌊q⌋
  else if 1 / 2 < q - ⌊q⌋ then ⌊q⌋ + 1
  else if Even ⌊q⌋ then ⌊q⌋ else ⌊q⌋ + 1

theorem roundHalfEven_intCast (n : ℤ) : roundHalfEven (n : ℚ) = n := by
  simp [roundHalfEven]

theorem abs_roundHalfEven_sub (q : ℚ) : |(roundHalfEven q : ℚ) - q| ≤ 1 / 2 := by
  have hfl : (⌊q⌋ : ℚ) ≤ q := Int.floor_le q
  have hfu : q < ⌊q⌋ + 1 := Int.lt_floor_add_one q
  unfold roundHalfEven
  split_ifs with h1 h2 h3 <;> rw [abs_le] <;> push_cast <;> constructor <;> linarith

/-- Round-to-nearest-even at 24 bits of significand: the `f32` rounding map
(unbounded exponent range), for positive rationals. -/
def froundPos (q : ℚ) : ℚ :=
  (roundHalfEven (q / 2 ^ (intLog2 q - 23)) : ℚ) * 2 ^ (intLog2 q - 23)

/-- The `f32` rounding map on all of ℚ. -/
def fround (q : ℚ) : ℚ :=
  if q < 0 then -froundPos (-q) else if q = 0 then 0 else froundPos q

theorem fround_of_pos (q : ℚ) (hq : 0 < q) : fround q = froundPos q := by
  unfold fround
  rw [if_neg (by linarith), if_neg (by linarith)]

theorem fround_zero : fround 0 = 0 := by simp [fround]

/-- Exactly representable values (integer significand below `2^24` times a
power of two) are fixed by `fround`. -/
theorem fround_fix (m : ℕ) (e : ℤ) (h1 : 0 < m) (h2 : m < 2 ^ 24) :
    fround ((m : ℚ) * 2 ^ e) = (m : ℚ) * 2 ^ e := by
  have hq : (0 : ℚ) < (m : ℚ) * 2 ^ e := by positivity
  rw [fround_of_pos _ hq]
  obtain ⟨hl, hu⟩ := natLog2_spec m h1
  set L := natLog2 m with hL
  have hL23 : L ≤ 23 := by
    by_contra hgt
    have h24 : 24 ≤ L := by omega
    have : (2 : ℕ) ^ 24 ≤ 2 ^ L := Nat.pow_le_pow_right (by norm_num) h24
    omega
  have hElog : intLog2 ((m : ℚ) * 2 ^ e) = (L : ℤ) + e := by
    apply intLog2_eq_of_bounds _ _ hq
    · have : (2 : ℚ) ^ ((L : ℤ) + e) = ((2 ^ L : ℕ) : ℚ) * 2 ^ e := by
        rw [zpow_add₀ (by norm_num : (2:ℚ) ≠ 0)]
        push_cast
        rw [zpow_natCast]
      rw [this]
      have hml : ((2 ^ L : ℕ) : ℚ) ≤ (m : ℚ) := by exact_mod_cast hl
      have hp : (0:ℚ) < 2 ^ e := by positivity
      exact mul_le_mul_of_nonneg_right hml (le_of_lt hp)
    · have : (2 : ℚ) ^ ((L : ℤ) + e + 1) = ((2 ^ (L + 1) : ℕ) : ℚ) * 2 ^ e := by
        rw [show (L : ℤ) + e + 1 = ((L + 1 : ℕ) : ℤ) + e by push_cast; ring]
        rw [zpow_add₀ (by norm_num : (2:ℚ) ≠ 0)]
        rw [zpow_natCast]
        push_cast
        ring
      rw [this]
      have hml : (m : ℚ) < ((2 ^ (L + 1) : ℕ) : ℚ) := by exact_mod_cast hu
      have hp : (0:ℚ) < 2 ^ e := by positivity
      exact mul_lt_mul_of_pos_right hml hp
  have h23L : ((23 - L : ℕ) : ℤ) = 23 - (L : ℤ) := by omega
  have hcast24 : ((m * 2 ^ (23 - L) : ℕ) : ℚ) = (m : ℚ) * 2 ^ ((23 : ℤ) - L) := by
    push_cast
    rw [← zpow_natCast (2:ℚ) (23 - L), h23L]
  have hzz : (2:ℚ) ^ ((23 : ℤ) - L) * 2 ^ ((L : ℤ) + e - 23) = 2 ^ e := by
    rw [← zpow_add₀ (by norm_num : (2:ℚ) ≠ 0)]
    congr 1
    ring
  unfold froundPos
  rw [hElog]
  have hsig : (m : ℚ) * 2 ^ e / 2 ^ ((L : ℤ) + e - 23) = ((m * 2 ^ (23 - L) : ℕ) : ℚ) := by
    rw [hcast24, div_eq_iff (by positivity : (2:ℚ) ^ ((L : ℤ) + e - 23) ≠ 0)]
    rw [mul_assoc, hzz]
  rw [hsig]
  have hint : roundHalfEven ((m * 2 ^ (23 - L) : ℕ) : ℚ) = ((m * 2 ^ (23 - L) : ℕ) : ℤ) := by
    exact_mod_cast roundHalfEven_intCast ((m * 2 ^ (23 - L) : ℕ) : ℤ)
  rw [hint]
  rw [show (((m * 2 ^ (23 - L) : ℕ) : ℤ) : ℚ) = ((m * 2 ^ (23 - L) : ℕ) : ℚ) by push_cast; ring]
  rw [hcast24, mul_assoc, hzz]

/-- Relative-error bound: rounding moves a positive value by at most
`q / 2^24` (one half unit in the last place). -/
theorem fround_err (q : ℚ) (hq : 0 < q) : |fround q - q| ≤ q / 2 ^ 24 := by
  rw [fround_of_pos _ hq]
  obtain ⟨hl, _⟩ := intLog2_spec q hq
  set E := intLog2 q with hE
  unfold froundPos
  rw [← hE]
  set s := q / 2 ^ (E - 23) with hs
  have hpow : (0 : ℚ) < 2 ^ (E - 23) := by positivity
  have key : (roundHalfEven s : ℚ) * 2 ^ (E - 23) - q =
      ((roundHalfEven s : ℚ) - s) * 2 ^ (E - 23) := by
    rw [hs]
    field_simp
  rw [key, abs_mul, abs_of_pos hpow]
  have h1 : |(roundHalfEven s : ℚ) - s| ≤ 1 / 2 := abs_roundHalfEven_sub s
  calc |(roundHalfEven s : ℚ) - s| * 2 ^ (E - 23)
      ≤ (1 / 2) * 2 ^ (E - 23) :=
        mul_le_mul_of_nonneg_right h1 (le_of_lt hpow)
    _ = 2 ^ E / 2 ^ 24 := by
        rw [zpow_sub₀ (by norm_num : (2:ℚ) ≠ 0)]
        rw [show ((2:ℚ) ^ (23 : ℤ)) = 8388608 by norm_num]
        rw [show ((2:ℚ) ^ (24 : ℕ)) = 16777216 by norm_num]
        ring
    _ ≤ q / 2 ^ 24 := by
        apply div_le_div_of_nonneg_right ?_ (by norm_num)
        exact hl

/-- Evaluation lemma: to compute `fround q`, exhibit the binade and the rounded
significand. -/
theorem fround_eval (q : ℚ) (E : ℤ) (m : ℤ) (h0 : 0 < q)
    (hl : (2 : ℚ) ^ E ≤ q) (hu : q < 2 ^ (E + 1))
    (hr : roundHalfEven (q / 2 ^ (E - 23)) = m) :
    fround q = (m : ℚ) * 2 ^ (E - 23) := by
  rw [fround_of_pos _ h0]
  unfold froundPos
  rw [intLog2_eq_of_bounds q E h0 hl hu, hr]

/-- Rounding `fround` of a natural number below `2^24` is that number. -/
theorem fround_natCast (m : ℕ) (h1 : 0 < m) (h2 : m < 2 ^ 24) :
    fround (m : ℚ) = (m : ℚ) := by
  have := fround_fix m 0 h1 h2
  simpa using this

/-! ## `src/utils.rs` — byte/GiB conversions and machine-integer helpers -/

def NB_OF_BYTES_IN_GIB : ℕ := 1024 ^ 3

/-- Source `utils::gib_to_bytes`: `gib * NB_OF_BYTES_IN_GIB` (usize arithmetic). -/
def gib_to_bytes (gib : ℕ) : ℕ := gib * NB_OF_BYTES_IN_GIB

/-- Source `utils::bytes_to_gib`: `bytes as f32 / NB_OF_BYTES_IN_GIB as f32`.  Both
casts and the division round to nearest `f32`. -/
def bytes_to_gib (bytes : ℕ) : ℚ :=
  fround (fround (bytes : ℚ) / fround (NB_OF_BYTES_IN_GIB : ℚ))

/-- Source `utils::bytes_to_gib_rounded`: `bytes_to_gib(bytes).ceil() as usize`.
The `f32` ceiling of a finite `f32` is exact (every integer reachable as a
ceiling of a finite `f32` is representable), and the `usize` cast of the
non-negative integral result truncates to the same integer. -/
def bytes_to_gib_rounded (bytes : ℕ) : ℕ :=
  (Int.ceil (bytes_to_gib bytes)).toNat

/-- Wrapping `usize` subtraction (release-profile Rust semantics);
agrees with `a - b` whenever `b ≤ a < 2^64`. -/
def usize_sub (a b : ℕ) : ℕ := (a % 2 ^ 64 + (2 ^ 64 - b % 2 ^ 64)) % 2 ^ 64

/-- Wrapping `usize` multiplication (release-profile Rust semantics). -/
def usize_mul (a b : ℕ) : ℕ := a * b % 2 ^ 64

/-- Wrapping `as i32` cast of a `usize` value. -/
def toI32 (n : ℕ) : ℤ :=
  if n % 2 ^ 32 < 2 ^ 31 then (n % 2 ^ 32 : ℤ) else (n % 2 ^ 32 : ℤ) - 2 ^ 32

theorem usize_sub_eq (a b : ℕ) (hb : b ≤ a) (ha : a < 2 ^ 64) :
    usize_sub a b = a - b := by
  unfold usize_sub
  have hb64 : b < 2 ^ 64 := lt_of_le_of_lt hb ha
  rw [Nat.mod_eq_of_lt ha, Nat.mod_eq_of_lt hb64]
  omega

/-! ## `src/config.rs` — configuration data model -/

inductive DiskType
  | Standard
  | Gp2
  | Io1
deriving DecidableEq, Repr

inductive DriveTarget
  | Online
  | Offline
  | Delete
deriving DecidableEq, Repr

/-- Source `config::ConfigFileDrive`: one parsed drive entry of the configuration
file.  Optional integer fields are `Option ℕ` (usize). -/
structure ConfigFileDrive where
  name : String
  target : DriveTarget
  mount_path : String
  disk_type : Option DiskType
  disk_iops_per_gib : Option ℕ
  max_total_size_gib : Option ℕ
  initial_size_gib : Option ℕ
  max_bsu_count : Option ℕ
  max_used_space_perc : Option ℕ
  min_used_space_perc : Option ℕ
  disk_scale_factor_perc : Option ℕ

/-! ## `src/bsu.rs` — cloud volume client -/

/-- The fields of the cloud API `Volume` object that the embedded code
reads (`outscale_api::models::Volume`, projected). -/
structure Volume where
  volume_id : Option String
  state : Option String
deriving DecidableEq, Repr

/-- Source `bsu::Bsu`: the daemon's view of one cloud volume. -/
structure Bsu where
  vm_id : Option String
  drive_name : String
  id : String
  size_bytes : ℕ
  size_gib : ℕ
  device_path : Option String
deriving DecidableEq, Repr

def MAX_IOPS_PER_VOLUMES : ℕ := 13000
def DEFAULT_IO1_IOPS_PER_GB : ℕ := 100

/-- The IOPS field of the `CreateVolumeRequest` built by `Bsu::create_gib`:
`Some(max(size*iops, 13000) as i32)` for Io1 (default 100 iops/GiB when the
drive configures none), `None` for every other disk type. -/
def create_gib_iops (disk_type : DiskType) (disk_iops_per_gib : Option ℕ)
    (disk_size_gib : ℕ) : Option ℤ :=
  match disk_type with
  | DiskType.Io1 =>
    match disk_iops_per_gib with
    | some iops => some (toI32 (max (usize_mul disk_size_gib iops) MAX_IOPS_PER_VOLUMES))
    | none => some (toI32 (max (usize_mul DEFAULT_IO1_IOPS_PER_GB disk_size_gib) MAX_IOPS_PER_VOLUMES))
  | _ => none

/-- The loop-exit test of `Bsu::wait_states`: the poll returns as soon as no
volume in the cloud response carries a state different from `desired_state`
(`!volumes.filter_map(state).any(|s| s != desired)`). -/
def wait_states_done (volumes : List Volume) (desired_state : String) : Bool :=
  !((volumes.filterMap fun v => v.state).any fun s => s != desired_state)

/-- The polling loop of `Bsu::wait_states` over a (finite) sequence of cloud
responses: index of the first response on which the poll returns. -/
def wait_states_run (desired_state : String) : List (List Volume) → Option ℕ
  | [] => none
  | r :: rs =>
    if wait_states_done r desired_state then some 0
    else (wait_states_run desired_state rs).map (· + 1)

/-- Source `bsu::api_limiter`, times in milliseconds.  `Instant::seconds()` of the
`datetime` crate truncates an instant to whole unix seconds. -/
def API_LIMITER_S : ℕ := 3

def instant_seconds (t_ms : ℕ) : ℕ := t_ms / 1000

/-- One pass through `api_limiter`: given the stored instant `last_ms` and the
current instant `now_ms`, the caller sleeps
`max(API_LIMITER_S - (now.seconds() - last.seconds()), 0)` seconds and the
stored instant becomes the instant of release, which is returned. -/
def api_limiter_step (last_ms now_ms : ℕ) : ℕ :=
  now_ms + 1000 *
    (((API_LIMITER_S : ℤ) - ((instant_seconds now_ms : ℤ) - (instant_seconds last_ms : ℤ))).toNat)

/-- The gate across a sequence of acquisition requests.  The mutex is held
through the sleep, so a caller samples `now` only after the previous holder
released: its `now` is `max req last`. -/
def api_limiter_run (last_ms : ℕ) : List ℕ → List ℕ
  | [] => []
  | req :: reqs =>
    let release := api_limiter_step last_ms (max req last_ms)
    release :: api_limiter_run release reqs

/-- Source `Bsu::find_next_available_device`, first loop: `/dev/xvdX`, `X ∈ b..=z`. -/
def xvd_singles : List String :=
  (List.range 25).map fun i => String.push "/dev/xvd" (Char.ofNat (98 + i))

/-- Source `Bsu::find_next_available_device`, second loop: `/dev/xvdXY`,
`X ∈ b..=z` outer, `Y ∈ a..=z` inner. -/
def xvd_doubles : List String :=
  (List.range 25).flatMap fun i =>
    (List.range 26).map fun j =>
      String.push (String.push "/dev/xvd" (Char.ofNat (98 + i))) (Char.ofNat (97 + j))

/-- Source `Bsu::find_next_available_device`, with the filesystem namespace abstracted
as the existence predicate `ex`: two sequential scans with early return. -/
def find_next_available_device (ex : String → Bool) : Option String :=
  match xvd_singles.find? (fun d => !ex d) with
  | some d => some d
  | none => xvd_doubles.find? (fun d => !ex d)

/-! ## `src/drive.rs` — per-drive reconciler -/

def DEFAULT_INITIAL_DISK_GIB : ℕ := 10
def DEFAULT_MAX_DISKS : ℕ := 10
def DEFAULT_MAX_USED_PERC : ℕ := 85
def DEFAULT_MIN_USED_PERC : ℕ := 40
def DEFAULT_SCALE_FACTOR_PERC : ℕ := 20
def DEFAULT_DISK_TYPE : DiskType := DiskType.Gp2
def MAX_BSU_SIZE_GIB : ℕ := 14901

/-- Source `drive::Drive` (declarative fields plus the fetched volume list; the
channel, timestamps and scratch lists are omitted).  The percentage fields
hold the `f32` values the constructor computes. -/
structure Drive where
  all_bsu : List Bsu
  name : String
  target : DriveTarget
  mount_path : String
  disk_type : DiskType
  disk_iops_per_gib : Option ℕ
  max_total_size_gib : Option ℕ
  initial_size_gib : ℕ
  max_bsu_count : ℕ
  max_used_space_perc : ℚ
  min_used_space_perc : ℚ
  disk_scale_factor_perc : ℚ

/-- Source `Drive::new`: defaults applied, percentages converted by
`x as f32 / 100.0` (an `f32` cast followed by an `f32` division; `100.0` is
exact).  No validation of any kind is performed. -/
def Drive.new (config : ConfigFileDrive) : Drive where
  all_bsu := []
  name := config.name
  target := config.target
  mount_path := config.mount_path
  disk_type := config.disk_type.getD DEFAULT_DISK_TYPE
  disk_iops_per_gib := config.disk_iops_per_gib
  max_total_size_gib := config.max_total_size_gib
  initial_size_gib := config.initial_size_gib.getD DEFAULT_INITIAL_DISK_GIB
  max_bsu_count := config.max_bsu_count.getD DEFAULT_MAX_DISKS
  max_used_space_perc :=
    fround (fround ((config.max_used_space_perc.getD DEFAULT_MAX_USED_PERC : ℕ) : ℚ) / 100)
  min_used_space_perc :=
    fround (fround ((config.min_used_space_perc.getD DEFAULT_MIN_USED_PERC : ℕ) : ℚ) / 100)
  disk_scale_factor_perc :=
    fround (fround ((config.disk_scale_factor_perc.getD DEFAULT_SCALE_FACTOR_PERC : ℕ) : ℚ) / 100)

def Drive.bsu_count (d : Drive) : ℕ := d.all_bsu.length

/-- Source `Drive::largest_bsu`: linear scan keeping the first strict maximum of
`size_bytes`, starting from 0.  The source `expect`s the result; `none`
models that panic (empty list, or every volume of size 0). -/
def Drive.largest_bsu (d : Drive) : Option Bsu :=
  (d.all_bsu.foldl
    (fun acc bsu => if bsu.size_bytes > acc.2 then (some bsu, bsu.size_bytes) else acc)
    ((none : Option Bsu), 0)).1

/-- Source `Drive::smallest_bsu`: linear scan keeping the first strict minimum of
`size_bytes`, starting from `usize::MAX`. -/
def Drive.smallest_bsu (d : Drive) : Option Bsu :=
  (d.all_bsu.foldl
    (fun acc bsu => if bsu.size_bytes < acc.2 then (some bsu, bsu.size_bytes) else acc)
    ((none : Option Bsu), 2 ^ 64 - 1)).1

def Drive.is_drive_reached_max_attached_bsu (d : Drive) : Bool :=
  d.bsu_count ≥ d.max_bsu_count

def Drive.is_drive_reached_max_attached_bsu_minus_one (d : Drive) : Bool :=
  d.bsu_count == d.max_bsu_count - 1

/-- Source `Drive::is_drive_contains_smallest_bsu`:
`smallest_bsu().size_gib <= initial_size_gib` (panics when no volume). -/
def Drive.is_drive_contains_smallest_bsu (d : Drive) : Option Bool :=
  d.smallest_bsu.map fun b => decide (b.size_gib ≤ d.initial_size_gib)

/-- Source `Drive::all_bsu_size_gib`: sum of `size_bytes` (wrapping usize addition),
converted through `bytes_to_gib_rounded`. -/
def Drive.all_bsu_size_gib (d : Drive) : ℕ :=
  bytes_to_gib_rounded
    (d.all_bsu.foldl (fun total bsu => (total + bsu.size_bytes) % 2 ^ 64) 0)

def Drive.is_max_space_reached (d : Drive) : Bool :=
  match d.max_total_size_gib with
  | none => false
  | some max_total => d.all_bsu_size_gib ≥ max_total

def Drive.has_minimal_size (d : Drive) : Bool :=
  d.all_bsu_size_gib == d.initial_size_gib

/-- Source `Drive::is_drive_low_space_left`: `fs::used_perc(lv) >= max_used_space_perc`;
`used_perc` is the observed `f32` used fraction. -/
def Drive.is_drive_low_space_left (d : Drive) (used_perc : ℚ) : Bool :=
  used_perc ≥ d.max_used_space_perc

def Drive.is_drive_high_space_left (d : Drive) (used_perc : ℚ) : Bool :=
  used_perc ≤ d.min_used_space_perc

/-- Source `Drive::ideal_size_bytes`, over the observed filesystem statistics:
`ceil(used_f32 / ((min+max)/2.0))` clamped into
`[gib_to_bytes(initial_size_gib), fs_size_bytes]`.  All arithmetic on the
left is `f32` (rounded by `fround`); the ceiling and `usize` cast are exact.
(ℚ convention `x / 0 = 0` replaces the `f32` infinity for `middle = 0`,
unreachable from parsed configurations, where `min+max > 0`.) -/
def Drive.ideal_size_bytes (d : Drive) (used_bytes fs_size_bytes : ℕ) : ℕ :=
  let middle_perc := fround (fround (d.min_used_space_perc + d.max_used_space_perc) / 2)
  let ideal0 := (Int.ceil (fround (fround (used_bytes : ℚ) / middle_perc))).toNat
  let ideal1 := max ideal0 (gib_to_bytes d.initial_size_gib)
  min ideal1 fs_size_bytes

/-- Source `Drive::create_larger_bsu`, size computation: `largest_bsu().size_gib` is
cast to `f32`, scaled by `largest + largest * disk_scale_factor_perc` (an
`f32` multiply then an `f32` add, each rounding), ceiled, cast to `usize`,
and clamped by `min(MAX_BSU_SIZE_GIB, ·)`.  The saturation of the `usize`
cast is unobservable below the clamp. -/
def Drive.create_larger_bsu_size_gib (d : Drive) : Option ℕ :=
  d.largest_bsu.map fun largest =>
    let largest_size_gib : ℚ := fround (largest.size_gib : ℚ)
    let new_bsu_size_gib : ℕ :=
      (Int.ceil (fround (largest_size_gib +
        fround (largest_size_gib * d.disk_scale_factor_perc)))).toNat
    min MAX_BSU_SIZE_GIB new_bsu_size_gib

/-- The structural action the Online reconcile policy (steps after the drive
is mounted and consistent, `reconcile_online` lines 317–352) decides on. -/
inductive PolicyAction
  | removeSmallest
  | createSmaller
  | createLarger
  | removeLargest
  | createIdeal
  | stop
  | panic
deriving DecidableEq, Repr

/-- The growth/shrink policy tail of `Drive::reconcile_online`:
cap the volume count, then the low-space branch, then the high-space branch,
else stable.  `used_perc` is the observed used fraction. -/
def Drive.online_policy (d : Drive) (used_perc : ℚ) : PolicyAction :=
  if d.is_drive_reached_max_attached_bsu then PolicyAction.removeSmallest
  else if d.is_drive_low_space_left used_perc then
    if d.is_max_space_reached then PolicyAction.stop
    else
      match d.is_drive_contains_smallest_bsu with
      | none => PolicyAction.panic
      | some contains =>
        if !d.is_drive_reached_max_attached_bsu_minus_one && !contains then
          PolicyAction.createSmaller
        else PolicyAction.createLarger
  else if d.is_drive_high_space_left used_perc then
    if d.bsu_count > 1 then PolicyAction.removeLargest
    else if d.has_minimal_size then PolicyAction.stop
    else PolicyAction.createIdeal
  else PolicyAction.stop

/-- Host-state mutations issued by the shrink procedure. -/
inductive Mutation
  | fsResize (new_size_bytes : ℕ)
  | lvReduce (new_size_bytes : ℕ)
  | pvMove (device : String)
  | vgReduce (device : String)
  | pvRemove (device : String)
  | lvExtendFull
  | fsExtendMax
  | bsuDetach (id : String)
  | bsuDelete (id : String)
deriving DecidableEq, Repr

/-- Source `Drive::lv_extend` over the observed VG/LV sizes: extend when
`vg_size > lv_size`, no-op when equal, invariant violation when smaller. -/
def Drive.lv_extend (vg_size lv_size : ℕ) : Except String (List Mutation) :=
  match compare vg_size lv_size with
  | Ordering.gt => Except.ok [Mutation.lvExtendFull]
  | Ordering.eq => Except.ok []
  | Ordering.lt => Except.error "vg_size < lv_size"

/-- Source `Drive::is_fs_extended` over the observed LV/FS sizes:
`fs_size.cmp(&lv_size)`: equal → extended, less → not yet, greater → error. -/
def Drive.is_fs_extended (lv_size fs_size : ℕ) : Except String Bool :=
  match compare fs_size lv_size with
  | Ordering.eq => Except.ok true
  | Ordering.lt => Except.ok false
  | Ordering.gt => Except.error "fs_size > lv_size"

/-- What one iteration of the staircase FS-extend step
(`while !self.is_fs_extended()? { self.fs_extend()?; }`) does:
`growMax` means `btrfs filesystem resize max` is invoked; an error aborts
the reconcile tick (the `?` operator propagates it out of `reconcile_online`). -/
inductive FsExtendStep
  | growMax
  | noop
deriving DecidableEq, Repr

def Drive.fs_extend_step (lv_size fs_size : ℕ) : Except String FsExtendStep :=
  match Drive.is_fs_extended lv_size fs_size with
  | Except.error e => Except.error e
  | Except.ok true => Except.ok FsExtendStep.noop
  | Except.ok false => Except.ok FsExtendStep.growMax

/-- The world as observed by one run of `Drive::remove_bsu`: filesystem
statistics before the shrink, and the VG/LV sizes `lv_extend` reads after the
victim PV has been removed.  (`ideal_size_bytes` and `remove_bsu` both read
the filesystem size; a quiescent filesystem reports one value.) -/
structure RemoveBsuObs where
  available_bytes : ℕ
  used_bytes : ℕ
  fs_size_bytes : ℕ
  vg_size_after : ℕ
  lv_size_after : ℕ

/-- Source `Drive::remove_bsu`: the precondition check, the shrink-target
computation, and the ordered mutation trace; paired with the error, if any
(mutations already issued when a later step fails are kept in the trace). -/
def Drive.remove_bsu (d : Drive) (obs : RemoveBsuObs) (bsu : Bsu) :
    List Mutation × Option String :=
  if obs.available_bytes < bsu.size_bytes then
    ([], some "cannot remove BSU: free space left is smaller than the BSU")
  else
    match bsu.device_path with
    | none => ([], some "cannot find device path for BSU")
    | some device_path =>
      let ideal := d.ideal_size_bytes obs.used_bytes obs.fs_size_bytes
      let largest_possible_new_fs_size := usize_sub obs.fs_size_bytes bsu.size_bytes
      let new_fs_size_bytes := min largest_possible_new_fs_size ideal
      let pre := [Mutation.fsResize new_fs_size_bytes, Mutation.lvReduce new_fs_size_bytes,
                  Mutation.pvMove device_path, Mutation.vgReduce device_path,
                  Mutation.pvRemove device_path]
      match Drive.lv_extend obs.vg_size_after obs.lv_size_after with
      | Except.error e => (pre, some e)
      | Except.ok ext =>
        (pre ++ ext ++ [Mutation.fsExtendMax, Mutation.bsuDetach bsu.id,
                        Mutation.bsuDelete bsu.id], none)

/-- The grow formula exactly as the spec words it (`§ Grow policy`), in exact
rational arithmetic: `min(MAX_VOLUME_GIB, ceil(largest_gib * (1 + scale)))`. -/
def spec_larger_size_gib (largest_gib : ℕ) (scale_factor : ℚ) : ℕ :=
  min MAX_BSU_SIZE_GIB (Int.ceil ((largest_gib : ℚ) * (1 + scale_factor))).toNat

/-! ## Shared lemmas -/

theorem fround_bounds (q : ℚ) (hq : 0 < q) :
    q - q / 2 ^ 24 ≤ fround q ∧ fround q ≤ q + q / 2 ^ 24 := by
  have h := fround_err q hq
  rw [abs_le] at h
  constructor <;> linarith [h.1, h.2]

theorem toI32_eq (n : ℕ) (h : n < 2 ^ 31) : toI32 n = (n : ℤ) := by
  have h32 : n < 2 ^ 32 := by omega
  unfold toI32
  rw [Nat.mod_eq_of_lt h32, if_pos h]
  omega

theorem usize_mul_eq (a b : ℕ) (h : a * b < 2 ^ 64) : usize_mul a b = a * b := by
  unfold usize_mul
  exact Nat.mod_eq_of_lt h

theorem list_find?_append {α : Type} (p : α → Bool) (l₁ l₂ : List α) :
    (l₁ ++ l₂).find? p =
      (match l₁.find? p with
       | some x => some x
       | none => l₂.find? p) := by
  induction l₁ with
  | nil => simp
  | cons a l ih =>
    by_cases h : p a
    · simp [List.find?, h]
    · simp only [List.cons_append, List.find?, h]
      exact ih

/-- The `wait_states` loop returns the index of the first response on which
its exit test holds, and the test failed on every earlier response. -/
theorem wait_states_run_first (desired : String) :
    ∀ (rs : List (List Volume)) (i : ℕ), wait_states_run desired rs = some i →
      wait_states_done (rs.getD i []) desired = true ∧
      ∀ j, j < i → wait_states_done (rs.getD j []) desired = false := by
  intro rs
  induction rs with
  | nil =>
    intro i h
    rw [show wait_states_run desired [] = none from rfl] at h
    cases h
  | cons r rest ih =>
    intro i h
    unfold wait_states_run at h
    by_cases hd : wait_states_done r desired
    · rw [if_pos hd] at h
      cases h
      exact ⟨hd, by omega⟩
    · rw [if_neg hd] at h
      rcases hmap : wait_states_run desired rest with _ | k
      · rw [hmap] at h; simp at h
      · rw [hmap, Option.map_some'] at h
        cases h
        obtain ⟨h1, h2⟩ := ih k hmap
        refine ⟨by simpa using h1, ?_⟩
        intro j hj
        cases j with
        | zero => simpa using Bool.eq_false_iff.mpr hd
        | succ j' =>
          have := h2 j' (by omega)
          simpa using this

/-! ## Claims -/

/-- Claim C6 — In the Online staircase's FS-extend step, if `fs_size < lv_size`
the filesystem is grown to max (`btrfs filesystem resize max`); if
`fs_size = lv_size` nothing is done; if `fs_size > lv_size` the step returns
an error, which the `?` operator propagates out of `reconcile_online`,
aborting the current reconcile tick. -/
theorem c6_fs_extend_trichotomy (lv_size fs_size : ℕ) :
    (fs_size < lv_size →
      Drive.fs_extend_step lv_size fs_size = Except.ok FsExtendStep.growMax) ∧
    (fs_size = lv_size →
      Drive.fs_extend_step lv_size fs_size = Except.ok FsExtendStep.noop) ∧
    (lv_size < fs_size →
      Drive.fs_extend_step lv_size fs_size = Except.error "fs_size > lv_size") := by
  refine ⟨fun h => ?_, fun h => ?_, fun h => ?_⟩
  · have hc : compare fs_size lv_size = Ordering.lt := Nat.compare_eq_lt.mpr h
    simp [Drive.fs_extend_step, Drive.is_fs_extended, hc]
  · have hc : compare fs_size lv_size = Ordering.eq := Nat.compare_eq_eq.mpr h
    simp [Drive.fs_extend_step, Drive.is_fs_extended, hc]
  · have hc : compare fs_size lv_size = Ordering.gt := Nat.compare_eq_gt.mpr h
    simp [Drive.fs_extend_step, Drive.is_fs_extended, hc]

theorem c6_witness :
    Drive.fs_extend_step 5 3 = Except.ok FsExtendStep.growMax ∧
    Drive.fs_extend_step 4 4 = Except.ok FsExtendStep.noop ∧
    Drive.fs_extend_step 3 5 = Except.error "fs_size > lv_size" :=
  ⟨(c6_fs_extend_trichotomy 5 3).1 (by norm_num),
   (c6_fs_extend_trichotomy 4 4).2.1 rfl,
   (c6_fs_extend_trichotomy 3 5).2.2 (by norm_num)⟩

set_option maxRecDepth 8192 in
/-- Claim C9 — The device-path allocator scans `/dev/xvdX`, `X ∈ b..z`, then
`/dev/xvdXY`, `X ∈ b..z`, `Y ∈ a..z`, in that order; it returns the first
candidate that does not exist in the filesystem namespace and `none` when all
675 candidates exist.  (`ex` is the existence probe `Path::exists`.) -/
theorem c9_device_allocator (ex : String → Bool) :
    find_next_available_device ex =
      (xvd_singles ++ xvd_doubles).find? (fun d => !ex d) ∧
    (find_next_available_device ex = none ↔
      ∀ d ∈ xvd_singles ++ xvd_doubles, ex d = true) ∧
    (xvd_singles ++ xvd_doubles).length = 675 ∧
    (xvd_singles ++ xvd_doubles).getD 0 "" = "/dev/xvdb" ∧
    xvd_singles.getD 24 "" = "/dev/xvdz" ∧
    xvd_doubles.getD 0 "" = "/dev/xvdba" ∧
    xvd_doubles.getD 25 "" = "/dev/xvdbz" ∧
    xvd_doubles.getD 26 "" = "/dev/xvdca" ∧
    xvd_doubles.getD 649 "" = "/dev/xvdzz" := by
  have happ : find_next_available_device ex =
      (xvd_singles ++ xvd_doubles).find? (fun d => !ex d) := by
    rw [list_find?_append]
    cases hf : xvd_singles.find? (fun d => !ex d) with
    | none => simp [find_next_available_device, hf]
    | some d => simp [find_next_available_device, hf]
  refine ⟨happ, ?_, by decide, by decide, by decide, by decide, by decide, by decide, by decide⟩
  rw [happ, List.find?_eq_none]
  constructor
  · intro h d hd
    have := h d hd
    simpa using this
  · intro h d hd
    simpa using h d hd

/-- Claim C2, counterexample — `wait_states` can return success on a cloud
response in which a queried volume does not report the desired state at all:
on the empty response (e.g. the queried volume was deleted concurrently and
the filtered list call returns nothing) the exit test holds and the loop
returns success immediately, although no volume of the response reports
`vol-1` in state `in-use`. -/
theorem c2_counterexample :
    wait_states_done [] "in-use" = true ∧
    wait_states_run "in-use" [[]] = some 0 ∧
    ¬ ∃ v ∈ ([] : List Volume), v.volume_id = some "vol-1" ∧ v.state = some "in-use" := by
  refine ⟨rfl, rfl, ?_⟩
  rintro ⟨v, hv, -⟩
  exact absurd hv (List.not_mem_nil v)

/-- Claim C2 (amended) — `wait_states` returns success exactly when no volume
present in the cloud response reports a state different from `desired_state`;
a queried volume absent from the response, or present without a state, does
not block success.  In particular, whenever some volume in the response
reports a different state the loop keeps polling, and it returns on the first
response passing the test. -/
theorem c2_wait_states (volumes : List Volume) (desired : String) :
    (wait_states_done volumes desired = true ↔
      ∀ v ∈ volumes, ∀ s, v.state = some s → s = desired) ∧
    (∀ (rs : List (List Volume)) (i : ℕ), wait_states_run desired rs = some i →
      wait_states_done (rs.getD i []) desired = true ∧
      ∀ j, j < i → wait_states_done (rs.getD j []) desired = false) := by
  refine ⟨?_, wait_states_run_first desired⟩
  unfold wait_states_done
  rw [Bool.not_eq_eq_eq_not, Bool.not_true, List.any_eq_false]
  constructor
  · intro h v hv s hs
    have := h s (List.mem_filterMap.mpr ⟨v, hv, hs⟩)
    simpa using this
  · intro h s hsmem
    obtain ⟨v, hv, hs⟩ := List.mem_filterMap.mp hsmem
    simpa using h v hv s hs

/-- Claim C3, counterexample — the IOPS field is built by
`max(size_gib * iops_per_gib, 13000) as i32`; the `as i32` cast wraps, so for
`size_gib = 1`, `iops_per_gib = 2^31` the request carries `-2^31`, not the
claimed `max(1 * 2^31, 13000) = 2^31`. -/
theorem c3_counterexample :
    create_gib_iops DiskType.Io1 (some (2 ^ 31)) 1 = some (-(2 ^ 31 : ℤ)) ∧
    (-(2 ^ 31 : ℤ)) ≠ ((max (1 * 2 ^ 31) 13000 : ℕ) : ℤ) := by
  constructor
  · show some (toI32 (max (usize_mul 1 (2 ^ 31)) MAX_IOPS_PER_VOLUMES)) = _
    rw [usize_mul_eq 1 (2 ^ 31) (by norm_num)]
    norm_num [MAX_IOPS_PER_VOLUMES, toI32]
  · norm_num

/-- Claim C3 (amended) — when creating an Io1 volume, the IOPS field of the
creation request equals `max(size_gib * iops_per_gib, 13000)` — with 100 as
`iops_per_gib` when the drive configures none — whenever that product fits in
`i32` (the `as i32` cast wraps otherwise); for Standard and Gp2 the IOPS
field is unset. -/
theorem c3_create_iops (g iops : ℕ)
    (hfit : g * iops < 2 ^ 31) (hdfit : DEFAULT_IO1_IOPS_PER_GB * g < 2 ^ 31) :
    create_gib_iops DiskType.Io1 (some iops) g =
      some ((max (g * iops) MAX_IOPS_PER_VOLUMES : ℕ) : ℤ) ∧
    create_gib_iops DiskType.Io1 none g =
      some ((max (DEFAULT_IO1_IOPS_PER_GB * g) MAX_IOPS_PER_VOLUMES : ℕ) : ℤ) ∧
    create_gib_iops DiskType.Standard (some iops) g = none ∧
    create_gib_iops DiskType.Standard none g = none ∧
    create_gib_iops DiskType.Gp2 (some iops) g = none ∧
    create_gib_iops DiskType.Gp2 none g = none := by
  have h13 : (13000 : ℕ) < 2 ^ 31 := by norm_num
  refine ⟨?_, ?_, rfl, rfl, rfl, rfl⟩
  · show some (toI32 (max (usize_mul g iops) MAX_IOPS_PER_VOLUMES)) = _
    rw [usize_mul_eq g iops (lt_trans hfit (by norm_num))]
    rw [toI32_eq _ (by simp [MAX_IOPS_PER_VOLUMES]; omega)]
  · show some (toI32 (max (usize_mul DEFAULT_IO1_IOPS_PER_GB g) MAX_IOPS_PER_VOLUMES)) = _
    rw [usize_mul_eq _ _ (lt_trans hdfit (by norm_num))]
    rw [toI32_eq _ (by simp [MAX_IOPS_PER_VOLUMES]; omega)]

theorem c3_witness :
    create_gib_iops DiskType.Io1 (some 30) 100 =
      some ((max (100 * 30) MAX_IOPS_PER_VOLUMES : ℕ) : ℤ) ∧
    create_gib_iops DiskType.Io1 none 100 =
      some ((max (DEFAULT_IO1_IOPS_PER_GB * 100) MAX_IOPS_PER_VOLUMES : ℕ) : ℤ) ∧
    create_gib_iops DiskType.Standard (some 30) 100 = none ∧
    create_gib_iops DiskType.Standard none 100 = none ∧
    create_gib_iops DiskType.Gp2 (some 30) 100 = none ∧
    create_gib_iops DiskType.Gp2 none 100 = none :=
  c3_create_iops 100 30 (by norm_num) (by norm_num [DEFAULT_IO1_IOPS_PER_GB])

/-- Claim C4, counterexample — the limiter measures the gap with
`Instant::seconds()`, which truncates to whole seconds.  A call released at
`999 ms` followed by a request at `3000 ms` observes `3 - 0 = 3` waited
seconds, sleeps `0`, and is released at `3000 ms`: only `2001 ms` after the
previous release, refuting the claimed real-time minimum of 3 seconds
between consecutive cloud calls. -/
theorem c4_counterexample :
    api_limiter_run 999 [3000] = [3000] ∧ 3000 - 999 < 3000 := by
  constructor
  · show [api_limiter_step 999 (max 3000 999)] = [3000]
    norm_num [api_limiter_step, instant_seconds, API_LIMITER_S]
  · norm_num

theorem api_limiter_step_sec (last_ms now_ms : ℕ) (h : last_ms ≤ now_ms) :
    instant_seconds last_ms + API_LIMITER_S ≤ instant_seconds (api_limiter_step last_ms now_ms) := by
  unfold api_limiter_step instant_seconds API_LIMITER_S
  set t := (((3 : ℕ) : ℤ) - ((now_ms / 1000 : ℕ) : ℤ) + ((last_ms / 1000 : ℕ) : ℤ)).toNat with ht
  have hdiv : (now_ms + 1000 * t) / 1000 = now_ms / 1000 + t := by
    rw [mul_comm, Nat.add_mul_div_right _ _ (by norm_num : (0:ℕ) < 1000)]
  have hmono : last_ms / 1000 ≤ now_ms / 1000 := Nat.div_le_div_right h
  omega

/-- Claim C4 (amended) — consecutive releases of the rate-limiter gate are at
least 3 apart in whole-second timestamps (`Instant::seconds()`), across all
drive workers (the mutex is held through the sleep, so each caller's `now` is
at least the previous release); on release `last_release` is set to the
release instant.  At sub-second resolution the real gap can be as small as
just over 2 s (see the counterexample). -/
theorem c4_rate_limiter_gap (last_ms : ℕ) (reqs : List ℕ) :
    List.Chain (fun x y => instant_seconds x + API_LIMITER_S ≤ instant_seconds y)
      last_ms (api_limiter_run last_ms reqs) := by
  induction reqs generalizing last_ms with
  | nil => exact List.Chain.nil
  | cons req reqs ih =>
    exact List.Chain.cons
      (api_limiter_step_sec last_ms (max req last_ms) (le_max_right _ _))
      (ih _)

/-- Claim C10 — for every whole-GiB count `1 ≤ g ≤ 14901`, converting to bytes
and back through the `f32`-based ceiling conversion is the identity:
`bytes_to_gib_rounded (gib_to_bytes g) = g`.  All three `f32` values met on
the way (`g * 2^30`, `2^30`, and the quotient `g`) are exactly representable. -/
theorem c10_gib_roundtrip (g : ℕ) (h1 : 1 ≤ g) (h2 : g ≤ MAX_BSU_SIZE_GIB) :
    bytes_to_gib_rounded (gib_to_bytes g) = g := by
  have hg24 : g < 2 ^ 24 := by
    have : MAX_BSU_SIZE_GIB < 2 ^ 24 := by norm_num [MAX_BSU_SIZE_GIB]
    omega
  have hNBcast : ((NB_OF_BYTES_IN_GIB : ℕ) : ℚ) = ((1 : ℕ) : ℚ) * 2 ^ (30 : ℤ) := by
    norm_num [NB_OF_BYTES_IN_GIB]
  have hNB : fround ((NB_OF_BYTES_IN_GIB : ℕ) : ℚ) = ((NB_OF_BYTES_IN_GIB : ℕ) : ℚ) := by
    rw [hNBcast]
    exact fround_fix 1 30 (by norm_num) (by norm_num)
  have hbytes : ((gib_to_bytes g : ℕ) : ℚ) = (g : ℚ) * 2 ^ (30 : ℤ) := by
    unfold gib_to_bytes
    push_cast [hNBcast]
    ring
  have hfb : fround ((gib_to_bytes g : ℕ) : ℚ) = ((gib_to_bytes g : ℕ) : ℚ) := by
    rw [hbytes]
    exact fround_fix g 30 h1 hg24
  unfold bytes_to_gib_rounded bytes_to_gib
  rw [hfb, hNB, hbytes, hNBcast]
  have hquot : (g : ℚ) * 2 ^ (30 : ℤ) / (((1 : ℕ) : ℚ) * 2 ^ (30 : ℤ)) = (g : ℚ) := by
    rw [Nat.cast_one, one_mul, mul_div_assoc, div_self (by positivity), mul_one]
  rw [hquot, fround_natCast g h1 hg24, Int.ceil_natCast]
  exact Int.toNat_natCast g

theorem c10_witness :
    1 ≤ 12 ∧ 12 ≤ MAX_BSU_SIZE_GIB ∧ bytes_to_gib_rounded (gib_to_bytes 12) = 12 :=
  ⟨by norm_num, by norm_num [MAX_BSU_SIZE_GIB],
   c10_gib_roundtrip 12 (by norm_num) (by norm_num [MAX_BSU_SIZE_GIB])⟩

/-- Claim C5 — `remove_bsu(v)` fails without performing any filesystem resize,
LVM mutation, or cloud mutation whenever the filesystem's available bytes are
less than `v.size_bytes`; otherwise — for a volume carrying a device path and
an observed filesystem at least as large as the volume — the first mutation it
performs is the filesystem resize to
`min(current_fs_size_bytes - v.size_bytes, ideal_size_bytes)`. -/
theorem c5_remove_bsu (d : Drive) (obs : RemoveBsuObs) (bsu : Bsu) :
    (obs.available_bytes < bsu.size_bytes →
      Drive.remove_bsu d obs bsu =
        ([], some "cannot remove BSU: free space left is smaller than the BSU")) ∧
    (bsu.size_bytes ≤ obs.available_bytes →
      bsu.size_bytes ≤ obs.fs_size_bytes → obs.fs_size_bytes < 2 ^ 64 →
      ∀ dev, bsu.device_path = some dev →
        (Drive.remove_bsu d obs bsu).1.head? =
          some (Mutation.fsResize (min (obs.fs_size_bytes - bsu.size_bytes)
            (d.ideal_size_bytes obs.used_bytes obs.fs_size_bytes)))) := by
  constructor
  · intro h
    unfold Drive.remove_bsu
    rw [if_pos h]
  · intro havail hsz h64 dev hdev
    have hu : usize_sub obs.fs_size_bytes bsu.size_bytes = obs.fs_size_bytes - bsu.size_bytes :=
      usize_sub_eq _ _ hsz h64
    unfold Drive.remove_bsu
    rw [if_neg (not_lt.mpr havail), hdev]
    cases hlv : Drive.lv_extend obs.vg_size_after obs.lv_size_after with
    | error e => simp [hlv, hu]
    | ok ext => simp [hlv, hu]

def d_c5 : Drive :=
  { all_bsu := [], name := "w", target := DriveTarget.Online, mount_path := "/w",
    disk_type := DiskType.Gp2, disk_iops_per_gib := none, max_total_size_gib := none,
    initial_size_gib := 10, max_bsu_count := 10,
    max_used_space_perc := 17/20, min_used_space_perc := 2/5,
    disk_scale_factor_perc := 1/5 }

def bsu_c5 : Bsu :=
  { vm_id := some "i-1", drive_name := "w", id := "vol-1",
    size_bytes := gib_to_bytes 2, size_gib := 2, device_path := some "/dev/xvdb" }

def obs_c5a : RemoveBsuObs :=
  { available_bytes := 0, used_bytes := 5, fs_size_bytes := gib_to_bytes 10,
    vg_size_after := 8, lv_size_after := 8 }

def obs_c5b : RemoveBsuObs :=
  { available_bytes := gib_to_bytes 3, used_bytes := gib_to_bytes 4,
    fs_size_bytes := gib_to_bytes 10, vg_size_after := 8, lv_size_after := 8 }

theorem c5_witness :
    Drive.remove_bsu d_c5 obs_c5a bsu_c5 =
      ([], some "cannot remove BSU: free space left is smaller than the BSU") ∧
    (Drive.remove_bsu d_c5 obs_c5b bsu_c5).1.head? =
      some (Mutation.fsResize (min (obs_c5b.fs_size_bytes - bsu_c5.size_bytes)
        (d_c5.ideal_size_bytes obs_c5b.used_bytes obs_c5b.fs_size_bytes))) :=
  ⟨(c5_remove_bsu d_c5 obs_c5a bsu_c5).1
      (by norm_num [obs_c5a, bsu_c5, gib_to_bytes, NB_OF_BYTES_IN_GIB]),
   (c5_remove_bsu d_c5 obs_c5b bsu_c5).2
      (by norm_num [obs_c5b, bsu_c5, gib_to_bytes, NB_OF_BYTES_IN_GIB])
      (by norm_num [obs_c5b, bsu_c5, gib_to_bytes, NB_OF_BYTES_IN_GIB])
      (by norm_num [obs_c5b, gib_to_bytes, NB_OF_BYTES_IN_GIB])
      "/dev/xvdb" rfl⟩

def cfg_c7 : ConfigFileDrive :=
  { name := "data", target := DriveTarget.Online, mount_path := "/data",
    disk_type := none, disk_iops_per_gib := none, max_total_size_gib := none,
    initial_size_gib := none, max_bsu_count := none, max_used_space_perc := none,
    min_used_space_perc := some 90, disk_scale_factor_perc := none }

/-- Claim C7, counterexample — neither `Drive::new` nor the configuration
parser validates anything: the entry `min-used-space-perc = 90` with the
default `max-used-space-perc = 85` constructs a `Drive` violating
`min_used_space_perc < max_used_space_perc`. -/
theorem c7_counterexample :
    ¬ ((Drive.new cfg_c7).min_used_space_perc < (Drive.new cfg_c7).max_used_space_perc) := by
  have hmin : (Drive.new cfg_c7).min_used_space_perc = fround (9 / 10 : ℚ) := by
    show fround (fround (((90 : ℕ) : ℚ)) / 100) = _
    rw [fround_natCast 90 (by norm_num) (by norm_num)]
    norm_num
  have hmax : (Drive.new cfg_c7).max_used_space_perc = fround (17 / 20 : ℚ) := by
    show fround (fround (((85 : ℕ) : ℚ)) / 100) = _
    rw [fround_natCast 85 (by norm_num) (by norm_num)]
    norm_num
  intro hlt
  rw [hmin, hmax] at hlt
  have h1 := (fround_bounds (9/10) (by norm_num)).1
  have h2 := (fround_bounds (17/20) (by norm_num)).2
  norm_num at h1 h2
  linarith

/-- Claim C7 (amended) — `Drive::new` applies defaults but validates nothing,
so the invariants `min_used_space_perc < max_used_space_perc`,
`initial_size_gib ≥ 1` and `max_bsu_count ≥ 2` hold exactly when the supplied
or defaulted values satisfy them; in particular they hold for every parsed
drive entry that leaves these four fields unset. -/
theorem c7_drive_invariants (config : ConfigFileDrive)
    (hmin : config.min_used_space_perc = none)
    (hmax : config.max_used_space_perc = none)
    (hinit : config.initial_size_gib = none)
    (hcount : config.max_bsu_count = none) :
    (Drive.new config).min_used_space_perc < (Drive.new config).max_used_space_perc ∧
    1 ≤ (Drive.new config).initial_size_gib ∧
    2 ≤ (Drive.new config).max_bsu_count := by
  have hm : (Drive.new config).min_used_space_perc = fround (2 / 5 : ℚ) := by
    show fround (fround ((config.min_used_space_perc.getD DEFAULT_MIN_USED_PERC : ℕ) : ℚ) / 100) = _
    rw [hmin]
    show fround (fround (((40 : ℕ) : ℚ)) / 100) = _
    rw [fround_natCast 40 (by norm_num) (by norm_num)]
    norm_num
  have hM : (Drive.new config).max_used_space_perc = fround (17 / 20 : ℚ) := by
    show fround (fround ((config.max_used_space_perc.getD DEFAULT_MAX_USED_PERC : ℕ) : ℚ) / 100) = _
    rw [hmax]
    show fround (fround (((85 : ℕ) : ℚ)) / 100) = _
    rw [fround_natCast 85 (by norm_num) (by norm_num)]
    norm_num
  refine ⟨?_, ?_, ?_⟩
  · rw [hm, hM]
    have h1 := (fround_bounds (2/5) (by norm_num)).2
    have h2 := (fround_bounds (17/20) (by norm_num)).1
    norm_num at h1 h2
    linarith
  · show 1 ≤ config.initial_size_gib.getD DEFAULT_INITIAL_DISK_GIB
    rw [hinit]
    norm_num [DEFAULT_INITIAL_DISK_GIB]
  · show 2 ≤ config.max_bsu_count.getD DEFAULT_MAX_DISKS
    rw [hcount]
    norm_num [DEFAULT_MAX_DISKS]

def cfg_c7w : ConfigFileDrive :=
  { name := "data", target := DriveTarget.Online, mount_path := "/data",
    disk_type := none, disk_iops_per_gib := none, max_total_size_gib := none,
    initial_size_gib := none, max_bsu_count := none, max_used_space_perc := none,
    min_used_space_perc := none, disk_scale_factor_perc := none }

theorem c7_witness :
    (Drive.new cfg_c7w).min_used_space_perc < (Drive.new cfg_c7w).max_used_space_perc ∧
    1 ≤ (Drive.new cfg_c7w).initial_size_gib ∧
    2 ≤ (Drive.new cfg_c7w).max_bsu_count :=
  c7_drive_invariants cfg_c7w rfl rfl rfl rfl

/-! Fixture for claim C1: a drive with all configuration defaults
(`initial_size_gib = 10`, `max_bsu_count = 10`, no total-size cap) owning a
10 GiB and a 12 GiB volume. -/

def cfg_c1 : ConfigFileDrive :=
  { name := "data", target := DriveTarget.Online, mount_path := "/data",
    disk_type := none, disk_iops_per_gib := none, max_total_size_gib := none,
    initial_size_gib := none, max_bsu_count := none, max_used_space_perc := none,
    min_used_space_perc := none, disk_scale_factor_perc := none }

def bsu10 : Bsu :=
  { vm_id := some "i-1", drive_name := "data", id := "vol-10",
    size_bytes := gib_to_bytes 10, size_gib := 10, device_path := some "/dev/xvdb" }

def bsu12 : Bsu :=
  { vm_id := some "i-1", drive_name := "data", id := "vol-12",
    size_bytes := gib_to_bytes 12, size_gib := 12, device_path := some "/dev/xvdc" }

def d_c1 : Drive := { Drive.new cfg_c1 with all_bsu := [bsu10, bsu12] }

theorem d_c1_low_space : Drive.is_drive_low_space_left d_c1 (9/10) = true := by
  have hmaxperc : d_c1.max_used_space_perc = fround (17 / 20 : ℚ) := by
    show fround (fround (((85 : ℕ) : ℚ)) / 100) = _
    rw [fround_natCast 85 (by norm_num) (by norm_num)]
    norm_num
  apply decide_eq_true
  show (9/10 : ℚ) ≥ d_c1.max_used_space_perc
  rw [hmaxperc]
  have h2 := (fround_bounds (17/20) (by norm_num)).2
  norm_num at h2 ⊢
  linarith

/-- Claim C1, counterexample — at a state inside the low-space branch
(`used_fraction = 0.9 ≥ 0.85`, no total-size cap), with the drive *not* at
`max_bsu_count - 1` (2 of 10 volumes) and the drive *containing* a volume at
or below `initial_size_gib` (the 10 GiB volume), the claim requires a
*smaller* volume; the code creates a *larger* one.  (The code takes the
smaller-volume branch only when the drive does *not* contain such a volume.) -/
theorem c1_counterexample :
    Drive.is_drive_low_space_left d_c1 (9/10) = true ∧
    Drive.is_max_space_reached d_c1 = false ∧
    Drive.is_drive_reached_max_attached_bsu d_c1 = false ∧
    Drive.is_drive_reached_max_attached_bsu_minus_one d_c1 = false ∧
    Drive.is_drive_contains_smallest_bsu d_c1 = some true ∧
    Drive.online_policy d_c1 (9/10) = PolicyAction.createLarger := by
  have hcap : Drive.is_drive_reached_max_attached_bsu d_c1 = false := by decide
  have hm1 : Drive.is_drive_reached_max_attached_bsu_minus_one d_c1 = false := by decide
  have hspace : Drive.is_max_space_reached d_c1 = false := rfl
  have hsm : Drive.is_drive_contains_smallest_bsu d_c1 = some true := by decide
  refine ⟨d_c1_low_space, hspace, hcap, hm1, hsm, ?_⟩
  simp [Drive.online_policy, hcap, d_c1_low_space, hspace, hsm, hm1]

/-- Claim C1 (amended) — in the Online reconcile low-space branch
(`used_fraction ≥ max_used_space_perc`, max total size not reached, volume
count below the cap), the reconciler creates a *smaller* volume iff the drive
is not at `max_bsu_count - 1` volumes **and** the drive does *not* already
contain a volume at or below `initial_size_gib`; otherwise it creates a
*larger* volume. -/
theorem c1_low_space_policy (d : Drive) (used_perc : ℚ) (contains : Bool)
    (hcap : Drive.is_drive_reached_max_attached_bsu d = false)
    (hlow : Drive.is_drive_low_space_left d used_perc = true)
    (hspace : Drive.is_max_space_reached d = false)
    (hsm : Drive.is_drive_contains_smallest_bsu d = some contains) :
    Drive.online_policy d used_perc =
      (if Drive.is_drive_reached_max_attached_bsu_minus_one d = false ∧ contains = false
       then PolicyAction.createSmaller
       else PolicyAction.createLarger) := by
  simp only [Drive.online_policy, hcap, hlow, hspace, hsm]
  cases hbo : Drive.is_drive_reached_max_attached_bsu_minus_one d <;>
    cases contains <;> simp [hbo]

theorem c1_witness :
    Drive.online_policy d_c1 (9/10) =
      (if Drive.is_drive_reached_max_attached_bsu_minus_one d_c1 = false ∧ true = false
       then PolicyAction.createSmaller
       else PolicyAction.createLarger) :=
  c1_low_space_policy d_c1 (9/10) true (by decide) d_c1_low_space rfl (by decide)

/-! Helpers for claim C8. -/

theorem ceil_dist_le_one (a b : ℚ) (h : |a - b| ≤ 1) :
    (⌈a⌉ - ⌈b⌉).natAbs ≤ 1 := by
  rw [abs_le] at h
  have h1 : ⌈a⌉ ≤ ⌈b⌉ + 1 := by
    rw [← Int.ceil_add_one]
    exact Int.ceil_le_ceil (by linarith [h.2])
  have h2 : ⌈b⌉ ≤ ⌈a⌉ + 1 := by
    rw [← Int.ceil_add_one]
    exact Int.ceil_le_ceil (by linarith [h.1])
  omega

set_option maxHeartbeats 1600000 in
/-- Claim C8 (amended) — `create_larger_bsu` creates a volume whose whole-GiB
size is within 1 GiB of `min(14901, ceil(largest_gib * (1 + scale_factor)))`,
where `largest_gib` is the GiB size of the drive's largest currently owned
volume and `scale_factor = disk_scale_factor_perc / 100`; precondition: the
drive owns at least one (positive-sized) volume.  The gap of at most one
comes from the `f32` rounding of the size computation; it is realised, see
the counterexample. -/
theorem c8_create_larger (d : Drive) (p : ℕ) (largest : Bsu)
    (hlb : Drive.largest_bsu d = some largest)
    (hg1 : 1 ≤ largest.size_gib) (hg2 : largest.size_gib ≤ MAX_BSU_SIZE_GIB)
    (hscale : d.disk_scale_factor_perc = fround ((p : ℚ) / 100)) :
    ∃ r, Drive.create_larger_bsu_size_gib d = some r ∧
      ((r : ℤ) - (spec_larger_size_gib largest.size_gib ((p : ℚ) / 100) : ℤ)).natAbs ≤ 1 := by
  have hg24 : largest.size_gib < 2 ^ 24 := by
    have : MAX_BSU_SIZE_GIB < 2 ^ 24 := by norm_num [MAX_BSU_SIZE_GIB]
    omega
  have hfg : fround ((largest.size_gib : ℕ) : ℚ) = ((largest.size_gib : ℕ) : ℚ) :=
    fround_natCast largest.size_gib hg1 hg24
  simp only [Drive.create_larger_bsu_size_gib, hlb, Option.map_some', hfg, hscale]
  refine ⟨_, rfl, ?_⟩
  have hG1 : (1 : ℚ) ≤ ((largest.size_gib : ℕ) : ℚ) := by exact_mod_cast hg1
  have hG14901 : ((largest.size_gib : ℕ) : ℚ) ≤ 14901 := by
    have := hg2
    rw [MAX_BSU_SIZE_GIB] at this
    exact_mod_cast this
  by_cases hp : p = 0
  · have h0 : ((p : ℚ) / 100) = 0 := by rw [hp]; norm_num
    rw [h0, fround_zero, mul_zero, fround_zero, add_zero, hfg]
    unfold spec_larger_size_gib
    norm_num
  · -- p ≥ 1
    have ht : 0 < (p : ℚ) / 100 := by
      have : (1 : ℚ) ≤ (p : ℚ) := by exact_mod_cast Nat.one_le_iff_ne_zero.mpr hp
      positivity
    have hGpos : (0 : ℚ) < ((largest.size_gib : ℕ) : ℚ) := by linarith
    -- abstract the three rounded values and the exact inputs
    obtain ⟨hB11, hB12⟩ := fround_bounds ((p : ℚ) / 100) ht
    obtain ⟨sc, hscdef⟩ : ∃ y, fround ((p : ℚ) / 100) = y := ⟨_, rfl⟩
    rw [hscdef] at hB11 hB12 ⊢
    set G : ℚ := ((largest.size_gib : ℕ) : ℚ) with hGdef
    set t : ℚ := (p : ℚ) / 100 with hTdef
    have hscpos : 0 < sc := by linarith
    obtain ⟨hB21, hB22⟩ := fround_bounds (G * sc) (mul_pos hGpos hscpos)
    obtain ⟨pr, hprdef⟩ : ∃ y, fround (G * sc) = y := ⟨_, rfl⟩
    rw [hprdef] at hB21 hB22 ⊢
    have htG : 0 < G * t := mul_pos hGpos ht
    have hGsc : 0 < G * sc := mul_pos hGpos hscpos
    have hprpos : 0 < pr := by linarith [hB21, hGsc]
    obtain ⟨hB31, hB32⟩ := fround_bounds (G + pr) (by linarith)
    obtain ⟨sv, hsvdef⟩ : ∃ y, fround (G + pr) = y := ⟨_, rfl⟩
    rw [hsvdef] at hB31 hB32 ⊢
    -- upper chain: sv ≤ G(1+t)(1+5u) with u = 2^-24
    have e1 : G * sc ≤ G * (t + t / 2 ^ 24) :=
      mul_le_mul_of_nonneg_left hB12 hGpos.le
    have e1m : G * sc / 2 ^ 24 ≤ G * (t + t / 2 ^ 24) / 2 ^ 24 := by linarith
    have e2 : pr ≤ G * t * (1 + 1/2^24) * (1 + 1/2^24) := by linarith [e1, e1m, hB22]
    have e3 : sv ≤ (G + pr) + (G + pr) / 2 ^ 24 := hB32
    have e4 : sv ≤ G * (1 + t) * (1 + 5/2^24) := by linarith [e2, e3, htG, hGpos]
    -- lower chain: G(1+t)(1−5u) ≤ sv
    have f1 : G * (t - t / 2 ^ 24) ≤ G * sc :=
      mul_le_mul_of_nonneg_left hB11 hGpos.le
    have f1m : G * (t - t / 2 ^ 24) / 2 ^ 24 ≤ G * sc / 2 ^ 24 := by linarith
    have f2 : G * t * (1 - 1/2^24) * (1 - 1/2^24) ≤ pr := by linarith [f1, f1m, hB21]
    have f4 : G * (1 + t) * (1 - 5/2^24) ≤ sv := by linarith [f2, hB31, htG, hGpos]
    have hsvpos : 0 < sv := by linarith [hB31, hGpos, hprpos]
    have hxpos : 0 < G * (1 + t) := by linarith [htG, hGpos]
    -- compare the two clamped ceilings
    unfold spec_larger_size_gib
    rw [← hGdef]
    by_cases hxle : G * (1 + t) ≤ 14901
    · have habs : |sv - G * (1 + t)| ≤ 1 := by
        rw [abs_le]
        constructor <;> nlinarith [e4, f4, hxle, hxpos]
      have hAB := ceil_dist_le_one sv (G * (1 + t)) habs
      have hsceil : (0 : ℤ) ≤ ⌈sv⌉ := Int.ceil_nonneg hsvpos.le
      have hxceil : (0 : ℤ) ≤ ⌈G * (1 + t)⌉ := Int.ceil_nonneg hxpos.le
      rw [MAX_BSU_SIZE_GIB]
      omega
    · push_neg at hxle
      have hBineq : (14901 : ℤ) < ⌈G * (1 + t)⌉ := by
        rw [Int.lt_ceil]
        exact_mod_cast hxle
      have hAineq : (14900 : ℤ) < ⌈sv⌉ := by
        rw [Int.lt_ceil]
        have h14900 : (14900 : ℚ) < sv := by nlinarith [f4, hxle, hxpos]
        exact_mod_cast h14900
      rw [MAX_BSU_SIZE_GIB]
      omega

/-- Concrete-evaluation form of `fround` for binades below `2^23`:
exhibit `E = 23 - k` and the rounded scaled significand. -/
theorem fround_eval_k (q : ℚ) (E : ℤ) (k : ℕ) (m : ℤ) (h0 : 0 < q)
    (hEk : E = 23 - (k : ℤ))
    (hl : (2 : ℚ) ^ E ≤ q) (hu : q < 2 ^ (E + 1))
    (hr : roundHalfEven (q * 2 ^ k) = m) :
    fround q = (m : ℚ) / 2 ^ k := by
  have hdiv : q / 2 ^ (E - 23) = q * 2 ^ k := by
    rw [hEk, show (23 - (k : ℤ)) - 23 = -(k : ℤ) by ring, zpow_neg, zpow_natCast,
      div_eq_mul_inv, inv_inv]
  have hmain := fround_eval q E m h0 hl hu (by rw [hdiv]; exact hr)
  rw [hmain, hEk, show (23 - (k : ℤ)) - 23 = -(k : ℤ) by ring, zpow_neg, zpow_natCast,
    ← div_eq_mul_inv]

theorem c8_round1 : roundHalfEven ((213 / 100 : ℚ) * 2 ^ 22) = 8933868 := by
  have hq : ((213 : ℚ) / 100) * 2 ^ 22 = 223346688 / 25 := by norm_num
  have hfl : ⌊(223346688 / 25 : ℚ)⌋ = 8933867 := by
    rw [Int.floor_eq_iff]
    norm_num
  rw [hq]
  unfold roundHalfEven
  rw [hfl]
  norm_num

theorem c8_scale_eval : fround ((213 : ℚ) / 100) = 2233467 / 1048576 := by
  have h := fround_eval_k ((213 : ℚ) / 100) 1 22 8933868 (by norm_num) (by norm_num)
    (by norm_num) (by norm_num) c8_round1
  rw [h]
  norm_num

theorem c8_round2 : roundHalfEven (((300 : ℚ) * (2233467 / 1048576)) * 2 ^ 14) = 10469377 := by
  have hq : ((300 : ℚ) * (2233467 / 1048576)) * 2 ^ 14 = 167510025 / 16 := by norm_num
  have hfl : ⌊(167510025 / 16 : ℚ)⌋ = 10469376 := by
    rw [Int.floor_eq_iff]
    norm_num
  rw [hq]
  unfold roundHalfEven
  rw [hfl]
  norm_num

theorem c8_prod_eval : fround ((300 : ℚ) * (2233467 / 1048576)) = 10469377 / 16384 := by
  have h := fround_eval_k ((300 : ℚ) * (2233467 / 1048576)) 9 14 10469377 (by norm_num)
    (by norm_num) (by norm_num) (by norm_num) c8_round2
  rw [h]
  norm_num

theorem c8_round3 : roundHalfEven (((300 : ℚ) + 10469377 / 16384) * 2 ^ 14) = 15384577 := by
  have hq : ((300 : ℚ) + 10469377 / 16384) * 2 ^ 14 = ((15384577 : ℤ) : ℚ) := by norm_num
  rw [hq, roundHalfEven_intCast]

theorem c8_sum_eval : fround ((300 : ℚ) + 10469377 / 16384) = 15384577 / 16384 := by
  have h := fround_eval_k ((300 : ℚ) + 10469377 / 16384) 9 14 15384577 (by norm_num)
    (by norm_num) (by norm_num) (by norm_num) c8_round3
  rw [h]
  norm_num

theorem c8_ceil : ⌈(15384577 / 16384 : ℚ)⌉ = 940 := by
  rw [Int.ceil_eq_iff]
  norm_num

def cfg_c8 : ConfigFileDrive :=
  { name := "data", target := DriveTarget.Online, mount_path := "/data",
    disk_type := none, disk_iops_per_gib := none, max_total_size_gib := none,
    initial_size_gib := none, max_bsu_count := none, max_used_space_perc := none,
    min_used_space_perc := none, disk_scale_factor_perc := some 213 }

def bsu300 : Bsu :=
  { vm_id := some "i-1", drive_name := "data", id := "vol-300",
    size_bytes := gib_to_bytes 300, size_gib := 300, device_path := some "/dev/xvdb" }

def d_c8 : Drive := { Drive.new cfg_c8 with all_bsu := [bsu300] }

theorem d_c8_scale : d_c8.disk_scale_factor_perc = fround (((213 : ℕ) : ℚ) / 100) := by
  show fround (fround (((213 : ℕ) : ℚ)) / 100) = _
  rw [fround_natCast 213 (by norm_num) (by norm_num)]

/-- Claim C8, counterexample — for a drive whose largest volume is 300 GiB and
`disk-scale-factor-perc = 213`, the code (computing `largest + largest*scale`
in `f32`) creates a 940 GiB volume, while the claimed formula
`min(14901, ceil(largest * (1 + scale)))` gives `ceil(300 * 3.13) = 939`. -/
theorem c8_counterexample :
    Drive.create_larger_bsu_size_gib d_c8 = some 940 ∧
    spec_larger_size_gib 300 (213 / 100) = 939 := by
  constructor
  · have hlb : Drive.largest_bsu d_c8 = some bsu300 := by decide
    have hsg : ((bsu300.size_gib : ℕ) : ℚ) = (300 : ℚ) := by norm_num [bsu300]
    have hscale : d_c8.disk_scale_factor_perc = (2233467 / 1048576 : ℚ) := by
      rw [d_c8_scale, show (((213 : ℕ) : ℚ) / 100) = (213 : ℚ) / 100 by norm_num,
        c8_scale_eval]
    have hf300 : fround (300 : ℚ) = 300 := by
      have h := fround_natCast 300 (by norm_num) (by norm_num)
      norm_num at h
      exact h
    simp only [Drive.create_larger_bsu_size_gib, hlb, Option.map_some', hsg, hscale,
      hf300, c8_prod_eval, c8_sum_eval, c8_ceil]
    norm_num [MAX_BSU_SIZE_GIB]
    rfl
  · unfold spec_larger_size_gib
    rw [show ((300 : ℕ) : ℚ) * (1 + 213 / 100) = ((939 : ℤ) : ℚ) by norm_num,
      Int.ceil_intCast]
    norm_num [MAX_BSU_SIZE_GIB]
    rfl

theorem c8_witness :
    ∃ r, Drive.create_larger_bsu_size_gib d_c8 = some r ∧
      ((r : ℤ) - (spec_larger_size_gib bsu300.size_gib (((213 : ℕ) : ℚ) / 100) : ℤ)).natAbs ≤ 1 :=
  c8_create_larger d_c8 213 bsu300 (by decide) (by norm_num [bsu300])
    (by norm_num [bsu300, MAX_BSU_SIZE_GIB]) d_c8_scale

theorem c2_witness :
    wait_states_done [{ volume_id := some "vol-1", state := some "creating" }] "in-use" = false := by
  by_contra hne
  have hdone : wait_states_done
      [{ volume_id := some "vol-1", state := some "creating" }] "in-use" = true := by
    cases h : wait_states_done
        [{ volume_id := some "vol-1", state := some "creating" }] "in-use" <;> simp_all
  have := (c2_wait_states
      [{ volume_id := some "vol-1", state := some "creating" }] "in-use").1.mp hdone
      { volume_id := some "vol-1", state := some "creating" } (by simp) "creating" rfl
  simp at this

theorem c4_witness :
    List.Chain (fun x y => instant_seconds x + API_LIMITER_S ≤ instant_seconds y)
      0 (api_limiter_run 0 [100, 9000]) :=
  c4_rate_limiter_gap 0 [100, 9000]

theorem c9_witness : find_next_available_device (fun _ => true) = none :=
  (c9_device_allocator (fun _ => true)).2.1.mpr (fun _ _ => rfl)

end Bsud
